import Mathlib

/-!
Verification of the tributary actor-tree runtime (Python 2 source) against its
natural-language specification.  The Python classes and methods named in the
claims are shallowly embedded as Lean definitions below; machine behaviour
(dictionaries, name resolution, class hierarchy, exceptions) is made explicit
where the source relies on it.
-/

namespace Tributary

/-! ## streams.py: counting predicates (lines 14-52)

Each predicate object is a mutable counter consulted through `isValid`.
The message argument is ignored by all three `isValid` bodies, but is kept
in the embedding to mirror the source signature. -/

/-- State of streams.py `LimitPredicate`: `__init__(self, limit, offset=0)`
stores `self.limit = limit + 1` and `self.count = 0` (the `offset` parameter
is unused by the source body). -/
structure LimitPredicate where
  limit : Nat
  count : Nat
deriving DecidableEq, Repr

/-- `LimitPredicate.__init__`: `self.limit = limit + 1; self.count = 0`. -/
def LimitPredicate.init (limit : Nat) : LimitPredicate :=
  { limit := limit + 1, count := 0 }

/-- `LimitPredicate.isValid`: `self.count += 1; return self.count < self.limit`. -/
def LimitPredicate.isValid {α : Type} (p : LimitPredicate) (_msg : α) :
    LimitPredicate × Bool :=
  let c := p.count + 1
  ({ p with count := c }, decide (c < p.limit))

/-- State of streams.py `SkipPredicate`: `__init__(self, skip)` stores
`self.skip = skip + 1` and `self.count = 0`. -/
structure SkipPredicate where
  skip : Nat
  count : Nat
deriving DecidableEq, Repr

/-- `SkipPredicate.__init__`: `self.skip = skip + 1; self.count = 0`. -/
def SkipPredicate.init (skip : Nat) : SkipPredicate :=
  { skip := skip + 1, count := 0 }

/-- `SkipPredicate.isValid`: `self.count += 1; return self.count > self.skip`. -/
def SkipPredicate.isValid {α : Type} (p : SkipPredicate) (_msg : α) :
    SkipPredicate × Bool :=
  let c := p.count + 1
  ({ p with count := c }, decide (c > p.skip))

/-- State of streams.py `SkipLimitPredicate`: `__init__(self, skip, limit)`
stores `self.skip = skip + 1`, `self.limit = limit + 1`, `self.count = 0`. -/
structure SkipLimitPredicate where
  skip : Nat
  limit : Nat
  count : Nat
deriving DecidableEq, Repr

/-- `SkipLimitPredicate.__init__`:
`self.skip = skip + 1; self.limit = limit + 1; self.count = 0`. -/
def SkipLimitPredicate.init (skip limit : Nat) : SkipLimitPredicate :=
  { skip := skip + 1, limit := limit + 1, count := 0 }

/-- `SkipLimitPredicate.isValid`:
`self.count += 1; return self.count > self.skip and self.count < self.limit + self.skip`. -/
def SkipLimitPredicate.isValid {α : Type} (p : SkipLimitPredicate) (_msg : α) :
    SkipLimitPredicate × Bool :=
  let c := p.count + 1
  ({ p with count := c }, decide (c > p.skip) && decide (c < p.limit + p.skip))

/-- Feed a sequence of messages one at a time through a stateful `isValid`
method, collecting the boolean verdicts in order. -/
def runIsValid {σ α : Type} (step : σ → α → σ × Bool) : σ → List α → List Bool
  | _, [] => []
  | s, m :: ms =>
    let r := step s m
    r.2 :: runIsValid step r.1 ms

/-! ## streams.py: StreamElement.execute modifier pipeline (lines 105-169)

`execute` walks `self.modifiers` inside a bare `try`/`except`.  For a
modifier that is a `BaseOverride` instance it evaluates
`modifier.isOverriden(input)`; for a `BasePredicate` instance it evaluates
`modifier.isValid(input)`.  `BaseOverride` (core.py lines 39-44) defines only
`apply`, and no class in the repository defines `isOverriden` or `override`,
so the attribute lookup `modifier.isOverriden` raises an `AttributeError`,
which the bare `except` catches (the message is logged and dropped).  Only
when every consulted predicate accepts does `self.process(input)` run. -/

/-- The Override contract of core.py `BaseOverride` (lines 39-44): a single
`apply(message) -> message` operation. -/
structure BaseOverride (α : Type) where
  apply : α → α

/-- A predicate object as consulted by `StreamElement.execute`: it is read
through its `isValid(message) -> bool` method (the counting predicates above
are instances; their per-message decision is a boolean function of the
message for one `execute` call). -/
structure StreamPred (α : Type) where
  isValid : α → Bool

/-- An entry of `StreamElement.modifiers`: either a `BaseOverride` instance
(added by `addOverride`) or a predicate instance (added by `addFilter`). -/
inductive Modifier (α : Type)
  | override : BaseOverride α → Modifier α
  | predicate : StreamPred α → Modifier α

/-- Python exception classes that the embedded fragments can raise. -/
inductive PyError
  | attributeError (attr : String)
deriving DecidableEq, Repr

/-- The modifier loop of `StreamElement.execute` (lines 121-135): iterate the
modifiers in order; an override is consulted via `modifier.isOverriden(input)`
(an attribute `BaseOverride` objects do not have, hence `AttributeError`); a
predicate is consulted via `isValid`, and a `False` verdict sets
`valid = False` and breaks.  Returns the possibly transformed input and the
validity flag, or the exception escaping to the enclosing `except`. -/
def runModifiers {α : Type} : List (Modifier α) → α → Except PyError (α × Bool)
  | [], input => .ok (input, true)
  | .override _ :: _, _ => .error (.attributeError "isOverriden")
  | .predicate p :: rest, input =>
    if p.isValid input then runModifiers rest input
    else .ok (input, false)

/-- Observable outcome of one `StreamElement.execute` call on a non-None
`input`: `some a` when `self.process(a)` is invoked with message `a`, `none`
when `process` is never reached (the message was filtered, or an exception
was caught by the bare `except` of lines 150-151 and the message dropped). -/
def executeProcessInput {α : Type} (modifiers : List (Modifier α)) (input : α) :
    Option α :=
  match runModifiers modifiers input with
  | .error _ => none
  | .ok (_, false) => none
  | .ok (a, true) => some a

/-! ## core.py: Actor children (lines 279-321)

`Actor._children` is a Python dict mapping a child name to the pair
`(len(self._children) at insertion, node)`.  We embed the dict as an
association list in insertion order carrying the stored integer; the node
component is identified by its (unique) name. -/

/-- Decimal digit characters of `n`, most significant first, by repeated
division; `fuel` only bounds the recursion depth (`n` itself always
suffices, see `toDecimalAux_eq`). -/
def toDecimalAux : Nat → Nat → List Char
  | 0, _ => []
  | fuel + 1, n =>
    if n = 0 then [] else toDecimalAux fuel (n / 10) ++ [Nat.digitChar (n % 10)]

/-- Python `str(n)` for a non-negative integer: its decimal numeral. -/
def decimalStr (n : Nat) : String :=
  if n = 0 then "0" else String.mk (toDecimalAux n n)

/-- The `_children` dict of an `Actor`: name and the integer stored with it
(`len(self._children)` at the time of insertion), in insertion order. -/
abbrev Children := List (String × Nat)

/-- Python `name in self._children` (dict key membership, used by
`Actor.__contains__` and by `add`). -/
def hasChild (cs : Children) (name : String) : Bool :=
  cs.any (fun p => p.1 == name)

/-- `Actor.add(node, lazy=False)`, lines 282-285: raise on a duplicate
sibling name, otherwise store `(len(self._children), node)` under the name. -/
def addNoRename (cs : Children) (name : String) : Except String Children :=
  if hasChild cs name then
    .error ("Same name siblings are not allowed. Child node, " ++ name ++
      ", already exists.")
  else .ok (cs ++ [(name, cs.length)])

/-- The candidate names tried by the `lazy` branch of `Actor.add`
(lines 287-291): first `node.name` itself (num = 0), then
`node.name + "-" + str(num)` for num = 1, 2, .... -/
def renameCandidate (base : String) : Nat → String
  | 0 => base
  | k + 1 => base ++ "-" ++ decimalStr (k + 1)

/-- The `while name in self` loop of `Actor.add` (lines 289-291), counting
`num` upward until the candidate is free.  The loop is embedded with fuel;
`renameLoop_spec` below proves that `cs.length + 1` iterations always reach a
free candidate, so `chosenNum` computes exactly what the unbounded loop does. -/
def renameLoopAux (cs : Children) (base : String) : Nat → Nat → Nat
  | 0, num => num
  | fuel + 1, num =>
    if hasChild cs (renameCandidate base num) then renameLoopAux cs base fuel (num + 1)
    else num

/-- The suffix number at which the rename loop of `Actor.add` stops. -/
def chosenNum (cs : Children) (base : String) : Nat :=
  renameLoopAux cs base (cs.length + 1) 0

/-- `Actor.add(node, lazy=True)`, lines 286-293: run the rename loop, mutate
`node.name` to the free candidate, and store it with `len(self._children)`.
Returns the new dict and the name given to the child. -/
def addRename (cs : Children) (base : String) : Children × String :=
  let name := renameCandidate base (chosenNum cs base)
  (cs ++ [(name, cs.length)], name)

/-- `Actor.__delitem__` (lines 317-321): raise `NodeDoesNotExist` when the
name is absent, else delete the dict entry. -/
def delChild (cs : Children) (name : String) : Except String Children :=
  if hasChild cs name then .ok (cs.filter (fun p => ¬ p.1 == name))
  else .error ("Node " ++ name ++ " does not exist")

/-! ## core.py: Actor.children iteration order (lines 308-311)

`children` evaluates `sorted(self._children.values())` over the stored
`(index, node)` pairs.  Python 2 tuple comparison orders by the integer
first and, on a tie, falls back to the default comparison of the two node
objects, which orders by type name and then by memory address — a quantity
outside the program state.  The embedding therefore takes the address
assignment as a parameter `addr`. -/

/-- Insertion into a list sorted by `le` (used to embed Python `sorted`,
whose result on a totally ordered input is the unique sorted arrangement). -/
def insertSorted {α : Type} (le : α → α → Bool) (a : α) : List α → List α
  | [] => [a]
  | b :: bs => if le a b then a :: b :: bs else b :: insertSorted le a bs

/-- Sorting by `le` (insertion sort; agrees with Python `sorted` on inputs
whose keys are totally ordered, as is the case below since `addr` assigns
distinct addresses). -/
def sortBy {α : Type} (le : α → α → Bool) : List α → List α
  | [] => []
  | a :: as => insertSorted le a (sortBy le as)

/-- Python 2 comparison of two `(index, node)` values: by index, then by the
default object comparison of the nodes, embodied by the address map `addr`. -/
def pairLE (addr : String → Nat) (p q : String × Nat) : Bool :=
  decide (p.2 < q.2) || (decide (p.2 = q.2) && decide (addr p.1 ≤ addr q.1))

/-- `Actor.children` (lines 308-311): the names of the children in the order
produced by `sorted(self._children.values())`, given the address map. -/
def childrenOrder (addr : String → Nat) (cs : Children) : List String :=
  (sortBy (pairLE addr) cs).map (fun p => p.1)

/-! ## core.py: channel listeners (lines 432-472)

`Actor.listeners` is a dict mapping a channel name to the ordered list of
listener functions; embedded as an association list (keys unique whenever
the dict is built through `on`). -/

/-- The `listeners` dict: channel name to ordered list of listeners. -/
abbrev Listeners (F : Type) := List (String × List F)

/-- Python `channel in self.listeners` followed by `self.listeners[channel]`:
the first entry for the channel, if any. -/
def lookupChannel {F : Type} : Listeners F → String → Option (List F)
  | [], _ => none
  | (c, fs) :: rest, ch => if c = ch then some fs else lookupChannel rest ch

/-- Store a transformed value under the key `ch` of the dict (the effect on
the association list of mutating `self.listeners[channel]` in place). -/
def updValue {F : Type} (ch : String) (g : List F → List F) (p : String × List F) :
    String × List F :=
  if p.1 = ch then (p.1, g p.2) else p

/-- `Actor.on(channel, function)` (lines 443-451): append to the existing
list for the channel, or bind the channel to the singleton list. -/
def onListener {F : Type} (ls : Listeners F) (ch : String) (f : F) : Listeners F :=
  match lookupChannel ls ch with
  | some _ => ls.map (updValue ch (fun fs => fs ++ [f]))
  | none => ls ++ [(ch, [f])]

/-- The listener invocations performed by `Actor.handle(message)`
(lines 460-463) for a message on channel `ch`: every listener registered for
the channel, in list (= registration) order; none when the channel has no
entry. -/
def handleInvoked {F : Type} (ls : Listeners F) (ch : String) : List F :=
  (lookupChannel ls ch).getD []

/-- `Actor.removeListener(channel, function)` (lines 432-441): when the
channel is present, `list.remove` deletes the first occurrence of the
function (returning `True`) or raises `ValueError` (caught, returning
`False`); an absent channel returns `False`. -/
def removeListener {F : Type} [DecidableEq F] (ls : Listeners F) (ch : String)
    (f : F) : Listeners F × Bool :=
  match lookupChannel ls ch with
  | none => (ls, false)
  | some fs =>
    if f ∈ fs then
      (ls.map (updValue ch (fun fs0 => fs0.erase f)), true)
    else (ls, false)

/-- A history of `on` registrations, applied in order to a listeners dict. -/
def registerAll {F : Type} (ls : Listeners F) : List (String × F) → Listeners F
  | [] => ls
  | (ch, f) :: rest => registerAll (onListener ls ch f) rest

/-! ## core.py: Engine.start (lines 532-553) and the services registry

`Engine.start` starts every root in the order added, waits in
`gevent.joinall` inside a `try` whose `except (KeyboardInterrupt,
SystemExit)` only logs, then calls `stop()` on every root in order, then
iterates `self._context.services.items()` joining each service, then logs
the elapsed time.  `ExecutionContext.services` is a plain Python 2 dict, so
`items()` yields the registered services each exactly once but in the
arbitrary iteration order of the hash table, embedded here as the parameter
`svcOrder` constrained to be a permutation of the registered names. -/

/-- The externally visible steps of one `Engine.start` run, in order. -/
inductive EngineEvent
  | started (root : String)
  | interruptLogged
  | stopped (root : String)
  | joined (service : String)
  | elapsedLogged
deriving DecidableEq, Repr

/-- `Engine.start` (lines 532-553): the ordered event trace of one run.
`interrupted` tells whether a `KeyboardInterrupt`/`SystemExit` arrived during
`gevent.joinall`; `svcOrder` is the iteration order of the services dict. -/
def engineStart (roots : List String) (interrupted : Bool)
    (svcOrder : List String) : List EngineEvent :=
  (roots.map .started)
    ++ (if interrupted then [.interruptLogged] else [])
    ++ (roots.map .stopped)
    ++ (svcOrder.map .joined)
    ++ [.elapsedLogged]

/-- Selector for `stopped` events. -/
def EngineEvent.isStopped : EngineEvent → Bool
  | .stopped _ => true
  | _ => false

/-- Selector for `joined` events. -/
def EngineEvent.isJoined : EngineEvent → Bool
  | .joined _ => true
  | _ => false

/-! ## core.py: SynchronousActor.tick / sleep (lines 685-691)

Both method bodies are a single `raise UnsupportedOperation("...")`.  The
exception class name must resolve in the scope of the method: local scope,
then the `tributary.core` module globals, then the builtins.  The module
globals of core.py are exactly the names bound by its import statements
(lines 4-12) and its module-level definitions; `exceptions.py` (the whole
module, lines 1-23) defines only `NotImplementedYet` and `NodeDoesNotExist`,
and no file in the repository defines `UnsupportedOperation`. -/

/-- Names bound in the module scope of `tributary.core`:
`from tributary import *` (the package `__all__`: the eight logging helpers),
`from . import exceptions`, `from .log import *` (the same helpers plus
`log_trace`), `from .utilities import validateType`,
`import datetime, calendar, json`, `import gevent`,
`from gevent import Greenlet`, `from gevent.queue import Queue, Empty`,
`from gevent.pool import Group`, `from . import events` (line 932), and the
module-level definitions of core.py itself. -/
def coreModuleBindings : List String :=
  ["log_script_activity", "log_exception", "log_info", "log_debug",
   "log_warning", "log_error", "log_critical", "log_activity", "log_trace",
   "exceptions", "validateType", "datetime", "calendar", "json", "gevent",
   "Greenlet", "Queue", "Empty", "Group", "events", "deser", "BasePredicate",
   "BaseOverride", "MessageContent", "Message", "Actor", "Engine",
   "ExecutionContext", "Service", "SynchronousActor"]

/-- The Python 2 builtin names a bare `raise Name(...)` could also resolve
against (the builtins module has no `UnsupportedOperation`; that name exists
only as `io.UnsupportedOperation`, never imported here). -/
def pythonBuiltins : List String :=
  ["Exception", "TypeError", "ValueError", "NameError", "AttributeError",
   "NotImplementedError", "KeyboardInterrupt", "SystemExit", "StopIteration",
   "RuntimeError", "KeyError", "IndexError", "object", "super", "isinstance",
   "len", "str", "sorted", "setattr", "getattr", "hasattr", "delattr",
   "iter", "dict", "list", "exit"]

/-- Outcome of evaluating a Python `raise Name(message)` statement. -/
inductive RaiseOutcome
  | raised (exceptionClass : String) (message : String)
  | nameErrorUndefined (missing : String)
deriving DecidableEq, Repr

/-- Evaluate `raise cls(msg)` in an environment: if `cls` resolves, the named
exception is raised with the message; otherwise the lookup itself fails with
`NameError: global name ... is not defined`. -/
def evalRaise (env : List String) (cls msg : String) : RaiseOutcome :=
  if env.contains cls then .raised cls msg else .nameErrorUndefined cls

/-- `SynchronousActor.tick` (lines 685-687): the body is exactly
`raise UnsupportedOperation("Synchronous Actors do not support tick()")`;
no attribute of the node is read or written. -/
def synchronousActorTick : RaiseOutcome :=
  evalRaise (coreModuleBindings ++ pythonBuiltins) "UnsupportedOperation"
    "Synchronous Actors do not support tick()"

/-- `SynchronousActor.sleep` (lines 689-691): the body is exactly
`raise UnsupportedOperation("Synchronous Actors do not support sleep(seconds)")`
for every `seconds` value; the argument is unused. -/
def synchronousActorSleep (_seconds : Nat) : RaiseOutcome :=
  evalRaise (coreModuleBindings ++ pythonBuiltins) "UnsupportedOperation"
    "Synchronous Actors do not support sleep(seconds)"

/-! ## core.py: SynchronousActor.start (lines 700-706) and Engine.add (526-530)

`class SynchronousActor(object)` (line 636) subclasses only `object`, while
`class Actor(Greenlet)` (line 190) is unrelated to it.  `start` runs
`self.handle(events.StartMessage)` — `StartMessage` has `forward=True`, so
the START listeners (`preProcess`, then the lambda setting `running = True`)
fire on the node and the same message is forwarded to every child
recursively — then calls `child.start()` on each child (a no-op, since the
forwarded START already set each child running), and finally evaluates
`super(Actor, self).start()`.  Python 2 `super(type, obj)` raises
`TypeError` unless `isinstance(obj, type)`, and a `SynchronousActor` is not
an `Actor`. -/

/-- The direct base classes of the classes involved (core.py lines 190, 636;
`Greenlet` comes from gevent and derives from `object`). -/
def classBases : String → List String
  | "Actor" => ["Greenlet"]
  | "Greenlet" => ["object"]
  | "SynchronousActor" => ["object"]
  | _ => []

/-- Transitive subclass test over `classBases` (fuel bounds the chain; 4
covers every chain in the table above). -/
def isSubclassAux : Nat → String → String → Bool
  | 0, _, _ => false
  | fuel + 1, c, target =>
    c == target || (classBases c).any (fun b => isSubclassAux fuel b target)

/-- Python `isinstance(obj, cls)` for an object of class `c`. -/
def isinstanceOf (c target : String) : Bool := isSubclassAux 4 c target

/-- `validateType("node", (Actor, SynchronousActor), node)` as run by
`Engine.add` (line 528) and `Actor.add` (line 281): accepted iff the node is
an instance of `Actor` or of `SynchronousActor`. -/
def engineAddAccepts (c : String) : Bool :=
  isinstanceOf c "Actor" || isinstanceOf c "SynchronousActor"

/-- Outcome of a Python statement sequence: normal completion or an
uncaught exception of the named class. -/
inductive PyOutcome
  | ok
  | typeError (msg : String)
deriving DecidableEq, Repr

/-- The `super(Actor, self).start()` call of line 706, evaluated with
`self` a `SynchronousActor` instance: Python 2 first checks
`isinstance(self, Actor)` and raises `TypeError` when it fails. -/
def superActorStartOnSync : PyOutcome :=
  if isinstanceOf "SynchronousActor" "Actor" then .ok
  else .typeError "super(type, obj): obj must be an instance or subtype of type"

/-- A tree of `SynchronousActor` instances: name, `running` flag, children
in insertion order. -/
inductive SyncTree
  | node (name : String) (running : Bool) (children : List SyncTree)

/-- The `running` flag of the root. -/
def SyncTree.runningFlag : SyncTree → Bool
  | .node _ r _ => r

/-- The children of the root. -/
def SyncTree.childList : SyncTree → List SyncTree
  | .node _ _ cs => cs

mutual

/-- Size measure for the recursion below. -/
def SyncTree.size : SyncTree → Nat
  | .node _ _ cs => SyncTree.sizeList cs + 1

/-- Sum of sizes of a list of trees. -/
def SyncTree.sizeList : List SyncTree → Nat
  | [] => 0
  | c :: cs => SyncTree.size c + SyncTree.sizeList cs

end

mutual

/-- `self.handle(events.StartMessage)`: `StartMessage` is forwarded
(`forward=True`), so the START listeners run here (`preProcess`, a no-op by
default, then `running = True`) and the message is delivered to every child
via `child.handle` (`SynchronousActor.handle`, lines 876-894), recursively. -/
def handleStart : SyncTree → SyncTree
  | .node n _ cs => .node n true (handleStartList cs)

/-- `handleStart` mapped over a child list. -/
def handleStartList : List SyncTree → List SyncTree
  | [] => []
  | c :: cs => handleStart c :: handleStartList cs

end

/-- Every tree has positive size. -/
theorem SyncTree.size_pos (t : SyncTree) : 0 < t.size := by
  cases t with
  | node n r cs => simp [SyncTree.size]

mutual

/-- `handleStart` preserves the size measure. -/
theorem size_handleStart : ∀ t : SyncTree, (handleStart t).size = t.size
  | .node n r cs => by
    simp [handleStart, SyncTree.size, sizeList_handleStartList cs]

/-- `handleStartList` preserves the size measure. -/
theorem sizeList_handleStartList :
    ∀ cs : List SyncTree, SyncTree.sizeList (handleStartList cs) = SyncTree.sizeList cs
  | [] => rfl
  | c :: cs => by
    simp [handleStartList, SyncTree.sizeList, size_handleStart c,
      sizeList_handleStartList cs]

end

mutual

/-- `SynchronousActor.start` (lines 700-706): when `running` is already set
the guard skips everything; otherwise handle the forwarded START message,
call `start()` on each child in order (aborting if one raises), then
evaluate `super(Actor, self).start()`. -/
def startSync (t : SyncTree) : SyncTree × PyOutcome :=
  match t with
  | .node n true cs => (.node n true cs, .ok)
  | .node n false cs =>
    let cs1 := handleStartList cs
    let r := startList cs1
    match r.2 with
    | .ok => (.node n true r.1, superActorStartOnSync)
    | e => (.node n true r.1, e)
termination_by (t.size, 0)
decreasing_by
  simp only [Prod.lex_iff]
  left
  rw [sizeList_handleStartList cs]
  simp [SyncTree.size]

/-- The `for child in self.children: child.start()` loop of lines 704-705;
an exception from a child aborts the loop and propagates. -/
def startList (cs : List SyncTree) : List SyncTree × PyOutcome :=
  match cs with
  | [] => ([], .ok)
  | c :: rest =>
    let r := startSync c
    match r.2 with
    | .ok =>
      let rr := startList rest
      (r.1 :: rr.1, rr.2)
    | e => (r.1 :: rest, e)
termination_by (SyncTree.sizeList cs, 1)
decreasing_by
  · simp only [Prod.lex_iff, SyncTree.sizeList]
    omega
  · simp only [Prod.lex_iff, SyncTree.sizeList]
    have := SyncTree.size_pos c
    omega

end

/-! ## Lemmas about the counting predicates -/

/-- Verdict at position `i` (0-based) of a `LimitPredicate` run started from
an arbitrary counter value `c`: the predicate answers whether the updated
count stays below the stored bound. -/
theorem runIsValid_limit_get {α : Type} (L : Nat) (msgs : List α) :
    ∀ (c i : Nat), i < msgs.length →
      (runIsValid LimitPredicate.isValid ⟨L, c⟩ msgs)[i]?
        = some (decide (c + i + 1 < L)) := by
  induction msgs with
  | nil => intro c i hi; simp at hi
  | cons m ms ih =>
    intro c i hi
    cases i with
    | zero => simp [runIsValid, LimitPredicate.isValid]
    | succ i =>
      have h' : i < ms.length := by simpa using hi
      have e : c + 1 + i + 1 = c + (i + 1) + 1 := by omega
      have := ih (c + 1) i h'
      rw [e] at this
      simpa [runIsValid, LimitPredicate.isValid] using this

/-! ## Claim theorems for the counting predicates -/

/-- C4: for every non-negative limit `l` and every sequence of messages fed
one at a time to a `LimitPredicate`, the predicate returns true exactly
while the 1-based running count (`i + 1` at 0-based position `i`) is at most
`l`; in particular `Limit(3)` applied to a sequence of 5 messages accepts
exactly the first 3 and rejects the last 2. -/
theorem limitPredicate_counting_window :
    (∀ (α : Type) (l : Nat) (msgs : List α) (i : Nat), i < msgs.length →
      (runIsValid LimitPredicate.isValid (LimitPredicate.init l) msgs)[i]?
        = some (decide (i + 1 ≤ l)))
    ∧ runIsValid LimitPredicate.isValid (LimitPredicate.init 3)
        (List.replicate 5 ()) = [true, true, true, false, false] := by
  constructor
  · intro α l msgs i hi
    have := runIsValid_limit_get (l + 1) msgs 0 i hi
    rw [show (0 : Nat) + i + 1 = i + 1 by omega] at this
    rw [LimitPredicate.init]
    rw [this]
    congr 1
    rw [decide_eq_decide]
    omega
  · rfl

/-- Witness for C4: the hypothesis `i < msgs.length` discharged at the
concrete input `Limit(3)`, five messages, position 3 (1-based count 4). -/
theorem limitPredicate_counting_window_witness :
    (3 : Nat) < (List.replicate 5 ()).length ∧
    (runIsValid LimitPredicate.isValid (LimitPredicate.init 3)
      (List.replicate 5 ()))[3]? = some (decide (3 + 1 ≤ 3)) :=
  ⟨by decide, limitPredicate_counting_window.1 Unit 3 (List.replicate 5 ()) 3 (by decide)⟩

/-- C1: evaluation of the source at the failing input.  `SkipPredicate`
stores `skip + 1` and accepts only when `count > skip + 1`, so `Skip(2)` fed
5 messages returns false for the first THREE messages and true for the last
two — the claim says false for exactly the first 2 and true from the 3rd on.
The second conjunct shows the slip starkly: `Skip(0)` still drops the first
message. -/
theorem skipPredicate_rejects_one_extra :
    runIsValid SkipPredicate.isValid (SkipPredicate.init 2) (List.replicate 5 ())
      = [false, false, false, true, true]
    ∧ runIsValid SkipPredicate.isValid (SkipPredicate.init 0) (List.replicate 3 ())
      = [false, true, true] := by
  exact ⟨rfl, rfl⟩

/-- C2: evaluation of the source at the failing input.  `SkipLimitPredicate`
stores `skip + 1` and `limit + 1` and accepts when
`skip + 1 < count < limit + skip + 2`, so `SkipLimit(1,2)` fed 5 messages
accepts positions 3 and 4 — the claim says positions 2 and 3.  The second
conjunct shows `SkipLimit(0,1)` accepting position 2 instead of position 1. -/
theorem skipLimitPredicate_window_shifted :
    runIsValid SkipLimitPredicate.isValid (SkipLimitPredicate.init 1 2)
      (List.replicate 5 ()) = [false, false, true, true, false]
    ∧ runIsValid SkipLimitPredicate.isValid (SkipLimitPredicate.init 0 1)
      (List.replicate 3 ()) = [false, true, false] := by
  exact ⟨rfl, rfl⟩

/-- C3: evaluation of `StreamElement.execute` at the failing input.  A
modifier list holding one override that satisfies the `BaseOverride`
contract (`apply` maps `n` to `n + 1`) makes `execute` drop the message —
`process` is never invoked, rather than receiving the transformed message
`6`: the attribute lookup `modifier.isOverriden` fails and the bare `except`
swallows it.  The flanking conjuncts show the other behaviours of the same
loop: with no modifiers the message reaches `process` unchanged, and a
rejecting predicate keeps the message away from `process`. -/
theorem streamElement_override_never_reaches_process :
    executeProcessInput [Modifier.override ⟨fun n : Nat => n + 1⟩] 5 = none
    ∧ executeProcessInput ([] : List (Modifier Nat)) 5 = some 5
    ∧ executeProcessInput [Modifier.predicate ⟨fun _ : Nat => false⟩] 5 = none := by
  exact ⟨rfl, rfl, rfl⟩

/-! ## Lemmas about Actor.add and the rename loop -/

/-- The fuel-bounded decimal writer agrees with the digit expansion whenever
the fuel is at least the number. -/
theorem toDecimalAux_eq :
    ∀ (fuel n : Nat), n ≤ fuel →
      toDecimalAux fuel n = ((Nat.digits 10 n).map Nat.digitChar).reverse := by
  intro fuel
  induction fuel with
  | zero =>
    intro n hn
    interval_cases n
    simp [toDecimalAux]
  | succ f ih =>
    intro n hn
    rcases Nat.eq_zero_or_pos n with h0 | h0
    · subst h0; simp [toDecimalAux]
    · have hd : n / 10 ≤ f := by
        have := Nat.div_lt_self h0 (by norm_num : (1 : Nat) < 10)
        omega
      rw [toDecimalAux, if_neg (by omega), ih (n / 10) hd,
        Nat.digits_def' (by norm_num : (1 : Nat) < 10) h0]
      simp

/-- `Nat.digitChar` tells decimal digits apart. -/
theorem digitChar_inj_lt :
    ∀ a < 10, ∀ b < 10, Nat.digitChar a = Nat.digitChar b → a = b := by decide

/-- Mapping `Nat.digitChar` over lists of decimal digits is injective. -/
theorem map_digitChar_inj :
    ∀ (l1 l2 : List Nat), (∀ x ∈ l1, x < 10) → (∀ x ∈ l2, x < 10) →
      l1.map Nat.digitChar = l2.map Nat.digitChar → l1 = l2 := by
  intro l1
  induction l1 with
  | nil => intro l2 _ _ h; cases l2 <;> simp_all
  | cons a l1 ih =>
    intro l2 h1 h2 h
    cases l2 with
    | nil => simp_all
    | cons b l2 =>
      simp only [List.map_cons, List.cons.injEq] at h
      have ha : a < 10 := h1 a (by simp)
      have hb : b < 10 := h2 b (by simp)
      have : a = b := digitChar_inj_lt a ha b hb h.1
      subst this
      have := ih l2 (fun x hx => h1 x (by simp [hx])) (fun x hx => h2 x (by simp [hx])) h.2
      simp [this]

/-- Decimal numerals are distinct for distinct numbers. -/
theorem decimalStr_inj : Function.Injective decimalStr := by
  have key : ∀ m, m ≠ 0 →
      (decimalStr m).data = ((Nat.digits 10 m).map Nat.digitChar).reverse := by
    intro m hm
    rw [decimalStr, if_neg hm, toDecimalAux_eq m m le_rfl]
  have digit_lt : ∀ m, ∀ x ∈ Nat.digits 10 m, x < 10 := by
    intro m x hx
    exact Nat.digits_lt_base (by norm_num) hx
  have of_char_eq : ∀ m n, m ≠ 0 → n ≠ 0 →
      ((Nat.digits 10 m).map Nat.digitChar).reverse
        = ((Nat.digits 10 n).map Nat.digitChar).reverse → m = n := by
    intro m n _ _ h
    have h2 := List.reverse_injective h
    have h3 := map_digitChar_inj _ _ (digit_lt m) (digit_lt n) h2
    have hm := Nat.ofDigits_digits 10 m
    have hn := Nat.ofDigits_digits 10 n
    rw [← hm, ← hn, h3]
  intro m n h
  rcases Nat.eq_zero_or_pos m with hm | hm <;> rcases Nat.eq_zero_or_pos n with hn | hn
  · omega
  · exfalso
    subst hm
    have hd := congrArg String.data h
    rw [key n (by omega)] at hd
    have hd0 : (decimalStr 0).data = [Char.ofNat 48] := by decide
    rw [hd0] at hd
    rcases he : Nat.digits 10 n with _ | ⟨d, rest⟩
    · rw [he] at hd; simp at hd
    · rw [he] at hd
      rcases rest with _ | ⟨d2, rest2⟩
      · simp at hd
        have hdlt : d < 10 := digit_lt n d (by rw [he]; simp)
        have : d = 0 := by
          have h0 : Nat.digitChar d = Nat.digitChar 0 := by
            rw [← hd]; decide
          exact digitChar_inj_lt d hdlt 0 (by norm_num) h0
        subst this
        have := Nat.ofDigits_digits 10 n
        rw [he] at this
        simp [Nat.ofDigits] at this
        omega
      · have hlen := congrArg List.length hd
        simp at hlen
  · exfalso
    subst hn
    have hd := congrArg String.data h.symm
    rw [key m (by omega)] at hd
    have hd0 : (decimalStr 0).data = [Char.ofNat 48] := by decide
    rw [hd0] at hd
    rcases he : Nat.digits 10 m with _ | ⟨d, rest⟩
    · rw [he] at hd; simp at hd
    · rw [he] at hd
      rcases rest with _ | ⟨d2, rest2⟩
      · simp at hd
        have hdlt : d < 10 := digit_lt m d (by rw [he]; simp)
        have : d = 0 := by
          have h0 : Nat.digitChar d = Nat.digitChar 0 := by
            rw [← hd]; decide
          exact digitChar_inj_lt d hdlt 0 (by norm_num) h0
        subst this
        have := Nat.ofDigits_digits 10 m
        rw [he] at this
        simp [Nat.ofDigits] at this
        omega
      · have hlen := congrArg List.length hd
        simp at hlen
  · have hd := congrArg String.data h
    rw [key m (by omega), key n (by omega)] at hd
    exact of_char_eq m n (by omega) (by omega) hd

/-- The decimal numeral of a number is never empty. -/
theorem decimalStr_length_pos (n : Nat) : 0 < (decimalStr n).length := by
  rcases Nat.eq_zero_or_pos n with h | h
  · subst h; decide
  · have hkey : (decimalStr n).data = ((Nat.digits 10 n).map Nat.digitChar).reverse := by
      rw [decimalStr, if_neg (by omega), toDecimalAux_eq n n le_rfl]
    have hne : Nat.digits 10 n ≠ [] := Nat.digits_ne_nil_iff_ne_zero.mpr (by omega)
    have : (decimalStr n).length = (Nat.digits 10 n).length := by
      rw [String.length, hkey]
      simp
    rw [this]
    cases hgd : Nat.digits 10 n with
    | nil => exact absurd hgd hne
    | cons d rest => simp

/-- The candidate names of the rename loop are pairwise distinct. -/
theorem renameCandidate_inj (base : String) :
    Function.Injective (renameCandidate base) := by
  have hlen : ∀ k, (renameCandidate base (k + 1)).length
      = base.length + 1 + (decimalStr (k + 1)).length := by
    intro k
    simp [renameCandidate, String.length_append]
    rfl
  intro j k h
  match j, k with
  | 0, 0 => rfl
  | 0, k + 1 =>
    exfalso
    have := congrArg String.length h
    rw [renameCandidate, hlen k] at this
    have := decimalStr_length_pos (k + 1)
    omega
  | j + 1, 0 =>
    exfalso
    have := congrArg String.length h
    rw [renameCandidate, hlen j] at this
    have := decimalStr_length_pos (j + 1)
    omega
  | j + 1, k + 1 =>
    have hd := congrArg String.data h
    simp only [renameCandidate, String.data_append] at hd
    have h2 : (decimalStr (j + 1)).data = (decimalStr (k + 1)).data :=
      List.append_cancel_left hd
    have h3 : decimalStr (j + 1) = decimalStr (k + 1) := by
      cases he1 : decimalStr (j + 1)
      cases he2 : decimalStr (k + 1)
      rw [he1, he2] at h2
      simp at h2
      simp [h2]
    have := decimalStr_inj h3
    omega

/-- Membership form of `hasChild`. -/
theorem hasChild_iff_mem (cs : Children) (name : String) :
    hasChild cs name = true ↔ name ∈ cs.map Prod.fst := by
  simp [hasChild, List.any_eq_true, List.mem_map, beq_iff_eq]

/-- Pigeonhole: among the first `cs.length + 1` rename candidates at least
one is not a key of the children dict. -/
theorem exists_free_candidate (cs : Children) (base : String) :
    ∃ j, j ≤ cs.length ∧ hasChild cs (renameCandidate base j) = false := by
  by_contra hc
  push_neg at hc
  have hall : ∀ j ≤ cs.length, renameCandidate base j ∈ cs.map Prod.fst := by
    intro j hj
    have := hc j hj
    rw [← hasChild_iff_mem]
    cases hv : hasChild cs (renameCandidate base j) with
    | false => exact absurd hv this
    | true => rfl
  have hnd : ((List.range (cs.length + 1)).map (renameCandidate base)).Nodup :=
    (List.nodup_range _).map (renameCandidate_inj base)
  have hsubF : ((List.range (cs.length + 1)).map (renameCandidate base)).toFinset
      ⊆ (cs.map Prod.fst).toFinset := by
    intro x hx
    rw [List.mem_toFinset] at hx ⊢
    rw [List.mem_map] at hx
    obtain ⟨j, hj, he⟩ := hx
    rw [List.mem_range] at hj
    exact he ▸ hall j (by omega)
  have hcard1 : ((List.range (cs.length + 1)).map (renameCandidate base)).toFinset.card
      = cs.length + 1 := by
    rw [List.toFinset_card_of_nodup hnd]
    simp
  have hcard2 : (cs.map Prod.fst).toFinset.card ≤ cs.length := by
    have := (cs.map Prod.fst).toFinset_card_le
    simpa using this
  have := Finset.card_le_card hsubF
  omega

/-- Specification of the fuel-bounded rename loop: given enough fuel to
reach a free candidate, it stops at the least free candidate at or after
`start`. -/
theorem renameLoopAux_spec (cs : Children) (base : String) :
    ∀ (fuel start : Nat),
      (∃ j, j < fuel ∧ hasChild cs (renameCandidate base (start + j)) = false) →
      hasChild cs (renameCandidate base (renameLoopAux cs base fuel start)) = false ∧
      start ≤ renameLoopAux cs base fuel start ∧
      ∀ m, start ≤ m → m < renameLoopAux cs base fuel start →
        hasChild cs (renameCandidate base m) = true := by
  intro fuel
  induction fuel with
  | zero =>
    rintro start ⟨j, hj, _⟩
    omega
  | succ f ih =>
    intro start hex
    by_cases htaken : hasChild cs (renameCandidate base start) = true
    · have hrec : ∃ j, j < f ∧
          hasChild cs (renameCandidate base (start + 1 + j)) = false := by
        obtain ⟨j, hj, hfree⟩ := hex
        cases j with
        | zero =>
          rw [Nat.add_zero] at hfree
          rw [htaken] at hfree
          cases hfree
        | succ j0 =>
          refine ⟨j0, by omega, ?_⟩
          rw [show start + 1 + j0 = start + (j0 + 1) by omega]
          exact hfree
      have hmain := ih (start + 1) hrec
      rw [renameLoopAux, if_pos htaken]
      refine ⟨hmain.1, by omega, ?_⟩
      intro m hm1 hm2
      rcases Nat.eq_or_lt_of_le hm1 with he | hl
      · rw [← he]
        exact htaken
      · exact hmain.2.2 m (by omega) hm2
    · rw [renameLoopAux, if_neg htaken]
      have hfalse : hasChild cs (renameCandidate base start) = false := by
        cases hv : hasChild cs (renameCandidate base start) with
        | false => rfl
        | true => exact absurd hv htaken
      exact ⟨hfalse, le_rfl, fun m h1 h2 => absurd (lt_of_le_of_lt h1 h2) (lt_irrefl start)⟩

/-- The number chosen by the rename loop of `Actor.add`: its candidate is
free, and every smaller candidate is taken (so the loop is deterministic and
picks the smallest suffix). -/
theorem chosenNum_spec (cs : Children) (base : String) :
    hasChild cs (renameCandidate base (chosenNum cs base)) = false ∧
    ∀ m, m < chosenNum cs base → hasChild cs (renameCandidate base m) = true := by
  obtain ⟨j, hj, hfree⟩ := exists_free_candidate cs base
  have h := renameLoopAux_spec cs base (cs.length + 1) 0
    ⟨j, by omega, by simpa using hfree⟩
  exact ⟨h.1, fun m hm => h.2.2 m (Nat.zero_le m) hm⟩

/-! ## Claim theorem for Actor.add -/

/-- C5: `add(c)` without rename fails with the duplicate-sibling-name error
exactly when the parent already has a child named `c.name`, leaving the
children unchanged, and otherwise appends the child with index
`len(children)`; `add(c)` with rename always succeeds, giving the child the
original name when it is free and otherwise the original name with the
smallest numeric suffix `-1`, `-2`, ... that is unique among the children
(the chosen name is a deterministic function of the children and the base
name, its candidate index is minimal, and it is not already a child). -/
theorem actor_add_duplicate_and_rename (cs : Children) (name : String) :
    (hasChild cs name = true →
      addNoRename cs name = .error ("Same name siblings are not allowed. Child node, "
        ++ name ++ ", already exists."))
    ∧ (hasChild cs name = false →
        addNoRename cs name = .ok (cs ++ [(name, cs.length)]))
    ∧ (addRename cs name).2 = renameCandidate name (chosenNum cs name)
    ∧ hasChild cs (addRename cs name).2 = false
    ∧ (∀ m, m < chosenNum cs name → hasChild cs (renameCandidate name m) = true)
    ∧ (hasChild cs name = false → (addRename cs name).2 = name)
    ∧ (addRename cs name).1 = cs ++ [((addRename cs name).2, cs.length)] := by
  refine ⟨fun h => by simp [addNoRename, h], fun h => by simp [addNoRename, h],
    rfl, ?_, (chosenNum_spec cs name).2, ?_, rfl⟩
  · exact (chosenNum_spec cs name).1
  · intro h
    have hzero : chosenNum cs name = 0 := by
      by_contra hne
      have := (chosenNum_spec cs name).2 0 (by omega)
      rw [show renameCandidate name 0 = name from rfl, h] at this
      cases this
    show renameCandidate name (chosenNum cs name) = name
    rw [hzero, renameCandidate]

/-- Witness for C5: the hypotheses discharged at a concrete parent holding
children named foo and foo-1: adding another foo without rename yields the
duplicate error, and with rename the child is named foo-2. -/
theorem actor_add_duplicate_and_rename_witness :
    hasChild [("foo", 0), ("foo-1", 1)] "foo" = true ∧
    addNoRename [("foo", 0), ("foo-1", 1)] "foo"
      = .error ("Same name siblings are not allowed. Child node, "
          ++ "foo" ++ ", already exists.") ∧
    (addRename [("foo", 0), ("foo-1", 1)] "foo").2 = "foo-2" :=
  ⟨by decide,
   (actor_add_duplicate_and_rename [("foo", 0), ("foo-1", 1)] "foo").1 (by decide),
   by decide⟩

/-! ## Lemmas about the listener dict -/

/-- Looking a channel up after updating the value stored under `ch`:
only a lookup of `ch` itself sees the transformed list. -/
theorem lookupChannel_map_update {F : Type} (ch c : String) (g : List F → List F) :
    ∀ ls : Listeners F,
      lookupChannel (ls.map (updValue ch g)) c
        = if ch = c then (lookupChannel ls c).map g else lookupChannel ls c := by
  intro ls
  induction ls with
  | nil => by_cases h : ch = c <;> simp [lookupChannel, h]
  | cons p rest ih =>
    obtain ⟨k, fs⟩ := p
    by_cases hkch : k = ch <;> by_cases hkc : k = c
    · subst hkch
      subst hkc
      rw [List.map_cons, show updValue k g (k, fs) = (k, g fs) by simp [updValue],
        lookupChannel, lookupChannel, if_pos rfl, if_pos rfl, if_pos rfl]
      rfl
    · subst hkch
      rw [List.map_cons, show updValue k g (k, fs) = (k, g fs) by simp [updValue],
        lookupChannel, if_neg hkc, ih, if_neg hkc,
        lookupChannel, if_neg hkc]
      rw [if_neg hkc]
    · subst hkc
      rw [List.map_cons, show updValue ch g (k, fs) = (k, fs) by simp [updValue, hkch],
        lookupChannel, if_pos rfl, lookupChannel, if_pos rfl,
        if_neg (fun hx => hkch hx.symm)]
    · rw [List.map_cons, show updValue ch g (k, fs) = (k, fs) by simp [updValue, hkch],
        lookupChannel, if_neg hkc, ih, lookupChannel, if_neg hkc]

/-- Looking a channel up in a dict extended with a fresh binding at the end. -/
theorem lookupChannel_append_single {F : Type} (ch c : String) (f : F) :
    ∀ ls : Listeners F,
      lookupChannel (ls ++ [(ch, [f])]) c
        = match lookupChannel ls c with
          | some fs => some fs
          | none => if ch = c then some [f] else none := by
  intro ls
  induction ls with
  | nil => simp [lookupChannel]
  | cons p rest ih =>
    obtain ⟨k, fs⟩ := p
    by_cases hkc : k = c
    · subst hkc
      rw [List.cons_append, lookupChannel, if_pos rfl, lookupChannel, if_pos rfl]
    · rw [List.cons_append, lookupChannel, if_neg hkc, lookupChannel, if_neg hkc, ih]

/-- Effect of one `on` registration on the listeners `handle` runs for a
channel: the function lands at the end of its own channel and nowhere else. -/
theorem handleInvoked_on {F : Type} (ls : Listeners F) (ch c : String) (f : F) :
    handleInvoked (onListener ls ch f) c
      = if ch = c then handleInvoked ls c ++ [f] else handleInvoked ls c := by
  rw [onListener]
  cases hch : lookupChannel ls ch with
  | some fs0 =>
    rw [handleInvoked, lookupChannel_map_update]
    by_cases h : ch = c
    · subst h
      rw [if_pos rfl, if_pos rfl, handleInvoked, hch]
      rfl
    · rw [if_neg h, if_neg h, handleInvoked]
  | none =>
    rw [handleInvoked, lookupChannel_append_single]
    by_cases h : ch = c
    · subst h
      rw [handleInvoked]
      cases hc : lookupChannel ls ch with
      | some fs1 => exact absurd (hch ▸ hc) (by simp)
      | none => simp
    · rw [if_neg h, handleInvoked]
      cases hc : lookupChannel ls c <;> simp [h]

/-- The listeners `handle` runs after a history of `on` registrations:
exactly the functions registered for the channel, in registration order. -/
theorem handleInvoked_registerAll {F : Type} :
    ∀ (regs : List (String × F)) (ls : Listeners F) (c : String),
      handleInvoked (registerAll ls regs) c
        = handleInvoked ls c
          ++ (regs.filter (fun r => r.1 = c)).map Prod.snd := by
  intro regs
  induction regs with
  | nil => intro ls c; simp [registerAll]
  | cons r rest ih =>
    intro ls c
    obtain ⟨ch, f⟩ := r
    rw [registerAll, ih, handleInvoked_on]
    by_cases h : ch = c
    · subst h
      simp [List.filter]
    · simp [List.filter, h]

/-! ## Claim theorem for listener dispatch -/

/-- C6: `handle` invokes exactly the listeners currently registered for the
message channel, in registration order (for any history of `on` calls);
`removeListener(channel, f)` returns true exactly when `f` is currently
invoked on that channel, and then a subsequent `handle` runs the old list
with the first occurrence of `f` erased; it returns false, changing nothing,
when the channel or the function is not registered. -/
theorem listener_dispatch_and_removal {F : Type} [DecidableEq F] :
    (∀ (regs : List (String × F)) (c : String),
      handleInvoked (registerAll [] regs) c
        = (regs.filter (fun r => r.1 = c)).map Prod.snd)
    ∧ (∀ (ls : Listeners F) (c : String) (f : F),
        ((removeListener ls c f).2 = true ↔ f ∈ handleInvoked ls c)
        ∧ ((removeListener ls c f).2 = true →
            handleInvoked (removeListener ls c f).1 c = (handleInvoked ls c).erase f)
        ∧ ((removeListener ls c f).2 = false → (removeListener ls c f).1 = ls)) := by
  constructor
  · intro regs c
    rw [handleInvoked_registerAll]
    simp [handleInvoked, lookupChannel]
  · intro ls c f
    refine ⟨?_, ?_, ?_⟩
    · rw [removeListener]
      cases h : lookupChannel ls c with
      | none => simp [handleInvoked, h]
      | some fs =>
        by_cases hf : f ∈ fs
        · simp [hf, handleInvoked, h]
        · simp [hf, handleInvoked, h]
    · intro htrue
      cases h : lookupChannel ls c with
      | none => simp [removeListener, h] at htrue
      | some fs =>
        by_cases hf : f ∈ fs
        · simp only [removeListener, h, if_pos hf]
          rw [handleInvoked, lookupChannel_map_update, if_pos rfl, handleInvoked, h]
          rfl
        · simp [removeListener, h, hf] at htrue
    · intro hfalse
      cases h : lookupChannel ls c with
      | none => simp [removeListener, h]
      | some fs =>
        by_cases hf : f ∈ fs
        · simp [removeListener, h, hf] at hfalse
        · simp [removeListener, h, hf]

/-- Witness for C6: the concrete history registering 7 then 9 (other
channel) then 8; dispatch on channel data yields 7 then 8 in order, and
removing 7 makes a subsequent dispatch run 8 alone. -/
theorem listener_dispatch_and_removal_witness :
    handleInvoked (registerAll ([] : Listeners Nat)
        [("data", 7), ("stop", 9), ("data", 8)]) "data" = [7, 8]
    ∧ (removeListener (registerAll ([] : Listeners Nat)
        [("data", 7), ("data", 8)]) "data" 7).2 = true
    ∧ handleInvoked (removeListener (registerAll ([] : Listeners Nat)
        [("data", 7), ("data", 8)]) "data" 7).1 "data" = [8] := by
  have hmain := @listener_dispatch_and_removal Nat _
  refine ⟨?_, by decide, ?_⟩
  · rw [hmain.1 [("data", 7), ("stop", 9), ("data", 8)] "data"]
    decide
  · rw [(hmain.2 (registerAll [] [("data", 7), ("data", 8)]) "data" 7).2.1 (by decide)]
    decide

/-! ## Claim theorem for children iteration order -/

/-- C7: evaluation of `Actor.children` at the failing interleaving.  After
add a, add b, remove a, add c, the dict stores index 1 for BOTH b and c
(`len(self._children)` is reused), so `sorted(self._children.values())`
breaks the tie by Python 2 default object comparison — the memory addresses
of the node objects, modelled by the two `addr` maps.  Under one address
assignment iteration yields c before b, under the other b before c: the
order is not the insertion order of the present children and not determined
by the program state at all, contradicting the claim (and the method
docstring).  Each call is still stable within a run, where addresses are
fixed. -/
theorem children_order_not_insertion_order :
    (do
      let c1 ← addNoRename [] "a"
      let c2 ← addNoRename c1 "b"
      let c3 ← delChild c2 "a"
      addNoRename c3 "c" : Except String Children) = .ok [("b", 1), ("c", 1)]
    ∧ childrenOrder (fun n => if n = "c" then 0 else if n = "b" then 1 else 2)
        [("b", 1), ("c", 1)] = ["c", "b"]
    ∧ childrenOrder (fun n => if n = "b" then 0 else if n = "c" then 1 else 2)
        [("b", 1), ("c", 1)] = ["b", "c"] :=
  ⟨rfl, rfl, rfl⟩

/-! ## Claim theorems for Engine.start -/

/-- Last element of a list extended by one element. -/
theorem getLast_append_singleton {α : Type} (a : α) :
    ∀ l : List α, (l ++ [a]).getLast? = some a := by
  intro l
  induction l with
  | nil => rfl
  | cons x rest ih =>
    rw [List.cons_append, List.getLast?_cons, ih]
    cases rest <;> simp

/-- C8 counterexample: with services registered as s1 then s2, the Python 2
dict `services.items()` may legally iterate s2 first (the embedded
`svcOrder` is a permutation of the registered names); the run then joins s2
before s1 even though s1 was registered first, so the claim that services
are joined in registration order is false — the interrupt-handling and
stop-ordering parts of the run are unaffected. -/
theorem engine_join_order_counterexample :
    List.Perm ["s2", "s1"] ["s1", "s2"]
    ∧ engineStart ["r"] true ["s2", "s1"]
      = [.started "r", .interruptLogged, .stopped "r",
         .joined "s2", .joined "s1", .elapsedLogged]
    ∧ engineStart ["r"] true ["s2", "s1"]
      ≠ [.started "r", .interruptLogged, .stopped "r",
         .joined "s1", .joined "s2", .elapsedLogged] :=
  ⟨by decide, rfl, by decide⟩

/-- C8 (amended): even when an interrupt arrives during the wait, the run
still stops every root in the order they were added (the stopped events are
exactly `roots` in order), then joins every registered service exactly once
— in the iteration order of the services dict, an arbitrary permutation of
the registered names rather than registration order — and logs the elapsed
time last. -/
theorem engine_interrupt_stop_join (roots registered svcOrder : List String)
    (interrupted : Bool) (h : svcOrder.Perm registered) :
    ((engineStart roots interrupted svcOrder).filter EngineEvent.isStopped
        = roots.map EngineEvent.stopped)
    ∧ ((engineStart roots interrupted svcOrder).filter EngineEvent.isJoined
        = svcOrder.map EngineEvent.joined)
    ∧ ((engineStart roots interrupted svcOrder).filter EngineEvent.isJoined).Perm
        (registered.map EngineEvent.joined)
    ∧ (engineStart roots interrupted svcOrder).getLast? = some .elapsedLogged := by
  have hfs : ∀ l : List String,
      (l.map EngineEvent.started).filter EngineEvent.isStopped = []
      ∧ (l.map EngineEvent.stopped).filter EngineEvent.isStopped
          = l.map EngineEvent.stopped
      ∧ (l.map EngineEvent.joined).filter EngineEvent.isStopped = []
      ∧ (l.map EngineEvent.started).filter EngineEvent.isJoined = []
      ∧ (l.map EngineEvent.stopped).filter EngineEvent.isJoined = []
      ∧ (l.map EngineEvent.joined).filter EngineEvent.isJoined
          = l.map EngineEvent.joined := by
    intro l
    induction l with
    | nil => simp
    | cons x rest ih =>
      simp [List.filter, EngineEvent.isStopped, EngineEvent.isJoined, ih]
  refine ⟨?_, ?_, ?_, ?_⟩
  · cases interrupted <;>
      simp [engineStart, List.filter_append, (hfs roots).1, (hfs roots).2.1,
        (hfs svcOrder).2.2.1, List.filter, EngineEvent.isStopped]
  · cases interrupted <;>
      simp [engineStart, List.filter_append, (hfs roots).2.2.2.1,
        (hfs roots).2.2.2.2.1, (hfs svcOrder).2.2.2.2.2, List.filter,
        EngineEvent.isJoined]
  · cases interrupted <;>
      · simp only [engineStart, List.filter_append, (hfs roots).2.2.2.1,
          (hfs roots).2.2.2.2.1, (hfs svcOrder).2.2.2.2.2, List.filter,
          EngineEvent.isJoined]
        simp
        exact h.map EngineEvent.joined
  · exact getLast_append_singleton _ _

/-- Witness for C8: the permutation hypothesis discharged at the concrete
run of the counterexample (roots r, services registered s1 then s2,
iteration order s2 then s1, interrupted). -/
theorem engine_interrupt_stop_join_witness :
    List.Perm ["s2", "s1"] ["s1", "s2"]
    ∧ (engineStart ["r"] true ["s2", "s1"]).filter EngineEvent.isStopped
        = ["r"].map EngineEvent.stopped
    ∧ ((engineStart ["r"] true ["s2", "s1"]).filter EngineEvent.isJoined).Perm
        (["s1", "s2"].map EngineEvent.joined) :=
  ⟨by decide,
   (engine_interrupt_stop_join ["r"] ["s1", "s2"] ["s2", "s1"] true (by decide)).1,
   (engine_interrupt_stop_join ["r"] ["s1", "s2"] ["s2", "s1"] true (by decide)).2.2.1⟩

/-! ## Claim theorems for SynchronousActor -/

/-- C9: evaluation of the source at the failing input.  `tick()` and
`sleep(seconds)` both evaluate `raise UnsupportedOperation(...)`, but
`UnsupportedOperation` is bound neither in the module scope of core.py nor
in the Python 2 builtins, so the statements actually fail with a `NameError`
for the undefined name, not with an unsupported-operation error.  (The
bodies contain nothing else, so there is indeed no other effect on the
node.) -/
theorem syncActor_tick_sleep_raise_nameError :
    synchronousActorTick = .nameErrorUndefined "UnsupportedOperation"
    ∧ (∀ s : Nat, synchronousActorSleep s = .nameErrorUndefined "UnsupportedOperation")
    ∧ (coreModuleBindings ++ pythonBuiltins).contains "UnsupportedOperation" = false := by
  refine ⟨by decide, fun _s => rfl, by decide⟩

/-- A just-started `SynchronousActor` does nothing more on `start()`. -/
theorem startSync_running_node (n : String) (cs : List SyncTree) :
    startSync (.node n true cs) = (.node n true cs, .ok) := by
  rw [startSync]

/-- After the forwarded START message every node of the subtree has its
`running` flag set. -/
theorem handleStartList_mem_running (cs : List SyncTree) :
    ∀ c ∈ handleStartList cs, c.runningFlag = true := by
  induction cs with
  | nil =>
    intro c hc
    rw [handleStartList] at hc
    cases hc
  | cons a rest ih =>
    intro c hc
    rw [handleStartList] at hc
    rcases List.mem_cons.mp hc with h | h
    · subst h
      cases a with
      | node n r cs0 => rw [handleStart]; rfl
    · exact ih c h

/-- The child-start loop is a no-op once every child is already running. -/
theorem startList_all_running (cs : List SyncTree)
    (h : ∀ c ∈ cs, c.runningFlag = true) : startList cs = (cs, .ok) := by
  induction cs with
  | nil => rw [startList]
  | cons a rest ih =>
    have ha := h a (by simp)
    cases a with
    | node n r cs0 =>
      have hr : r = true := ha
      subst hr
      rw [startList, startSync_running_node]
      rw [ih (fun c hc => h c (by simp [hc]))]

/-- `SynchronousActor.start` on a non-running node: the whole subtree is
marked running by the forwarded START, the child starts are no-ops, and the
final `super(Actor, self).start()` raises `TypeError`. -/
theorem startSync_not_running (n : String) (cs : List SyncTree) :
    startSync (.node n false cs)
      = (.node n true (handleStartList cs),
         .typeError "super(type, obj): obj must be an instance or subtype of type") := by
  rw [startSync]
  rw [startList_all_running (handleStartList cs) (handleStartList_mem_running cs)]
  rfl

/-- C10: a `SynchronousActor` whose running flag is false is accepted by
`Engine.add` (its `validateType` admits Actor and SynchronousActor
instances), yet `start()` raises `TypeError` from `super(Actor, self)`
— a `SynchronousActor` subclasses only `object`, not `Actor` — after first
handling the START message locally (which marks the whole subtree running,
making every `child.start()` a no-op), so the start phase can never
complete. -/
theorem synchronousActor_start_raises_typeError (t : SyncTree)
    (h : t.runningFlag = false) :
    engineAddAccepts "SynchronousActor" = true
    ∧ (startSync t).1 = handleStart t
    ∧ (startSync t).2
        = .typeError "super(type, obj): obj must be an instance or subtype of type" := by
  cases t with
  | node n r cs =>
    have hr : r = false := h
    subst hr
    rw [startSync_not_running, handleStart]
    exact ⟨rfl, rfl, rfl⟩

/-- Witness for C10: the hypothesis discharged at a concrete two-node tree
with the running flag down. -/
theorem synchronousActor_start_raises_typeError_witness :
    (SyncTree.node "root" false [SyncTree.node "child" false []]).runningFlag = false
    ∧ (startSync (SyncTree.node "root" false [SyncTree.node "child" false []])).2
        = .typeError "super(type, obj): obj must be an instance or subtype of type" :=
  ⟨rfl, (synchronousActor_start_raises_typeError
    (SyncTree.node "root" false [SyncTree.node "child" false []]) rfl).2.2⟩

end Tributary
